import Mathlib

/-!
# FizzBuzz with continuations: a shallow embedding of `fizzbuzz.c`

The C program keeps no global variables; the only effect any of its functions
has is to append characters to the standard output stream.  A C procedure is
therefore embedded as a function from the text written so far to the text
written afterwards.  The result is wrapped in `Option`: `none` stands for
undefined behaviour of the C abstract machine (a remainder by zero, a
remainder whose quotient overflows, a `printf` conversion without argument).

Values of type `int` are embedded as `Int`.  The only arithmetic of the program
is `n % d` and the increment of a loop counter that never exceeds 21, so no
wrap-around is modelled; `INT_MIN` appears only in the definedness condition of
the remainder.
-/

namespace FizzBuzz

/-! ## The output stream and the C library primitives -/

/-- Text written to the standard output stream so far. -/
abbrev Output := String

/-- Embedding of `typedef void (*cont)(int n)`: a procedure taking an `int`
whose only effect is on the standard output; `none` is undefined behaviour. -/
abbrev cont := Int → Output → Option Output

/-- Smallest value of a 32-bit `int`. -/
def INT_MIN : Int := -2147483648

/-- The C expression `n % d`: the remainder of the division truncated towards
zero.  It is undefined when `d` is zero and when the quotient `n / d` is not
representable (`INT_MIN / -1`). -/
def cRem (n d : Int) : Option Int :=
  if d = 0 ∨ (n = INT_MIN ∧ d = -1) then none else some (Int.tmod n d)

/-- Text written by `printf("%d", n)`: an optional minus sign followed by the
decimal digits of the magnitude, without leading zeros. -/
def decimal (n : Int) : String :=
  if n < 0 then String.mk ('-' :: Nat.toDigits 10 n.natAbs)
  else String.mk (Nat.toDigits 10 n.natAbs)

/-- Text produced by a `printf` format string when no further argument is
passed: ordinary characters are copied, `%%` produces one percent sign, and
any other use of the percent sign is a conversion without argument, which is
undefined. -/
def formatNoArgs : List Char → Option (List Char)
  | [] => some []
  | c :: rest =>
    if c = '%' then
      match rest with
      | [] => none
      | c2 :: rest2 =>
        if c2 = '%' then (formatNoArgs rest2).map (fun t => '%' :: t) else none
    else (formatNoArgs rest).map (fun t => c :: t)

/-- The call `printf(fmt)` with a format string and no further argument.  A value of
type `char*` is embedded as the `String` of its characters up to the terminating
null character. -/
def printf0 (fmt : String) (out : Output) : Option Output :=
  (formatNoArgs fmt.data).map (fun t => out ++ String.mk t)

/-- The call `printf("%d", n)`. -/
def printfInt (n : Int) (out : Output) : Option Output :=
  some (out ++ decimal n)

/-! ## The program -/

/-- Embedding of `void skip(int n) {}`. -/
def skip : cont := fun _ out => some out

/-- Embedding of `void print(int n) { printf("%d", n); }`. -/
def print : cont := fun n out => printfInt n out

/-- Embedding of `cont test(int n, int d, char* c, cont k)`: when `n % d == 0` the
label is written by `printf(c)` during the call and `skip` is returned;
otherwise `k` is returned.  The result pairs the returned continuation with
the output after the call. -/
def test (n d : Int) (c : String) (k : cont) (out : Output) : Option (cont × Output) := do
  let r ← cRem n d
  if r = 0 then
    let out ← printf0 c out
    some (skip, out)
  else
    some (k, out)

/-- Embedding of `void fizzbuzz(int n)`. -/
def fizzbuzz (n : Int) (out : Output) : Option Output := do
  let k : cont := print
  let (k, out) ← test n 3 "fizz" k out
  let (k, out) ← test n 5 "buzz" k out
  k n out

/-- The loop `for (i = 1; i <= 20; i++) { fizzbuzz(i); printf("\n"); }` of `main`,
entered with the counter at `i`. -/
def mainLoop (i : Int) (out : Output) : Option Output :=
  if h : i ≤ 20 then do
    let out ← fizzbuzz i out
    let out ← printf0 "\n" out
    mainLoop (i + 1) out
  else
    some out
termination_by (21 - i).toNat
decreasing_by omega

/-- Embedding of `int main()`: the exit code paired with the final output. -/
def main (out : Output) : Option (Int × Output) := do
  let out ← mainLoop 1 out
  some (0, out)

/-- The text `fizzbuzz(n)` writes when the output stream is empty before the call. -/
def fizzbuzzOutput (n : Int) : String :=
  (fizzbuzz n "").getD ""

/-- The text `main` writes when the output stream is empty before the call. -/
def mainOutput : String :=
  ((main "").map Prod.snd).getD ""

/-- The first three statements of `fizzbuzz`, up to but without the final call
`k(n)`: the continuation held by the local variable `k` at that point, paired with
the output written so far. -/
def fizzbuzzCont (n : Int) (out : Output) : Option (cont × Output) := do
  let k : cont := print
  let (k, out) ← test n 3 "fizz" k out
  test n 5 "buzz" k out

/-! ## The program with a record of its calls of `test`

The same program, carrying as ghost state the list of the calls of `test` made so
far.  Each call is recorded on entry as the pair `(n, d)` of its first two
arguments, which are the operands of the only remainder operation `n % d`. -/

/-- Largest value of a 32-bit `int`. -/
def INT_MAX : Int := 2147483647

/-- The calls of `test` made so far, oldest first. -/
abbrev Calls := List (Int × Int)

/-- The function `test`, recording its own call. -/
def testTraced (n d : Int) (c : String) (k : cont) (out : Output) (calls : Calls) :
    Option (cont × Output × Calls) := do
  let calls := calls ++ [(n, d)]
  let r ← cRem n d
  if r = 0 then
    let out ← printf0 c out
    some (skip, out, calls)
  else
    some (k, out, calls)

/-- The function `fizzbuzz`, with the calls of `test` recorded. -/
def fizzbuzzTraced (n : Int) (out : Output) (calls : Calls) : Option (Output × Calls) := do
  let k : cont := print
  let (k, out, calls) ← testTraced n 3 "fizz" k out calls
  let (k, out, calls) ← testTraced n 5 "buzz" k out calls
  let out ← k n out
  some (out, calls)

/-- The loop of `main`, with the calls of `test` recorded. -/
def mainLoopTraced (i : Int) (out : Output) (calls : Calls) : Option (Output × Calls) :=
  if _ : i ≤ 20 then do
    let (out, calls) ← fizzbuzzTraced i out calls
    let out ← printf0 "\n" out
    mainLoopTraced (i + 1) out calls
  else
    some (out, calls)
termination_by (21 - i).toNat
decreasing_by omega

/-- The function `main`, with the calls of `test` recorded. -/
def mainTraced (out : Output) (calls : Calls) : Option (Int × Output × Calls) := do
  let (out, calls) ← mainLoopTraced 1 out calls
  some (0, out, calls)

/-! ## The reference of the specification -/

/-- The two rules of the specification, in their fixed order. -/
def referenceRules : List (Int × String) := [(3, "fizz"), (5, "buzz")]

/-- Reference of the specification, following its words: concatenate the labels of
all matching rules in order 3 then 5, and emit the number only if none matched. -/
def referenceText (n : Int) : String :=
  let matching := referenceRules.filter (fun rule => decide (Int.tmod n rule.1 = 0))
  if matching.isEmpty then decimal n else String.join (matching.map Prod.snd)

/-! ## Library primitives: remainder and `printf` -/

theorem cRem_of_ne {n d : Int} (hd : d ≠ 0) (h : Int.tmod n d ≠ 0) :
    cRem n d = some (Int.tmod n d) := by
  unfold cRem
  have hnot : ¬ (d = 0 ∨ (n = INT_MIN ∧ d = -1)) := by
    rintro (h0 | ⟨_, h1⟩)
    · exact hd h0
    · apply h
      subst h1
      exact Int.tmod_eq_zero_of_dvd ⟨-n, by ring⟩
  rw [if_neg hnot]

theorem cRem_three (n : Int) : cRem n 3 = some (Int.tmod n 3) := by
  unfold cRem
  have hnot : ¬ ((3 : Int) = 0 ∨ (n = INT_MIN ∧ (3 : Int) = -1)) := by omega
  rw [if_neg hnot]

theorem cRem_five (n : Int) : cRem n 5 = some (Int.tmod n 5) := by
  unfold cRem
  have hnot : ¬ ((5 : Int) = 0 ∨ (n = INT_MIN ∧ (5 : Int) = -1)) := by omega
  rw [if_neg hnot]

theorem cRem_some_zero {n d : Int} (h : cRem n d = some 0) :
    d ≠ 0 ∧ Int.tmod n d = 0 := by
  unfold cRem at h
  split at h
  · cases h
  · rename_i hnot
    refine ⟨fun h0 => hnot (Or.inl h0), ?_⟩
    simpa using h

theorem formatNoArgs_plain : ∀ l : List Char, '%' ∉ l → formatNoArgs l = some l
  | [], _ => rfl
  | c :: rest, h => by
    have hc : c ≠ '%' := fun e => h (by simp [e])
    have hrest : '%' ∉ rest := fun e => h (List.mem_cons_of_mem _ e)
    have ih := formatNoArgs_plain rest hrest
    cases rest with
    | nil => simp [formatNoArgs, hc]
    | cons c2 rest2 => simp only [formatNoArgs, if_neg hc] at ih ⊢; simp [ih]

theorem printf0_plain (c : String) (h : '%' ∉ c.data) (out : Output) :
    printf0 c out = some (out ++ c) := by
  unfold printf0
  rw [formatNoArgs_plain c.data h]
  rfl

theorem printf0_fizz (out : Output) : printf0 "fizz" out = some (out ++ "fizz") :=
  printf0_plain "fizz" (by decide) out

theorem printf0_buzz (out : Output) : printf0 "buzz" out = some (out ++ "buzz") :=
  printf0_plain "buzz" (by decide) out

theorem printf0_newline (out : Output) : printf0 "\n" out = some (out ++ "\n") :=
  printf0_plain "\n" (by decide) out

/-! ## The decimal text written by `printf("%d", n)` -/

theorem digitChar_isDigit (k : Nat) (hk : k < 10) : (Nat.digitChar k).isDigit = true := by
  interval_cases k <;> decide

theorem toDigitsCore_isDigit : ∀ (fuel n : Nat) (ds : List Char),
    (∀ c ∈ ds, c.isDigit = true) → ∀ c ∈ Nat.toDigitsCore 10 fuel n ds, c.isDigit = true
  | 0, _, ds, h => by simpa [Nat.toDigitsCore] using h
  | fuel + 1, n, ds, h => by
    have hd : ∀ c ∈ Nat.digitChar (n % 10) :: ds, c.isDigit = true := by
      intro c hc
      rcases List.mem_cons.mp hc with rfl | hc
      · exact digitChar_isDigit _ (Nat.mod_lt _ (by decide))
      · exact h c hc
    rw [Nat.toDigitsCore]
    split
    · exact hd
    · exact toDigitsCore_isDigit fuel (n / 10) _ hd

theorem toDigitsCore_ne_nil (fuel n : Nat) (ds : List Char) (h : ds ≠ []) :
    Nat.toDigitsCore 10 fuel n ds ≠ [] := by
  induction fuel generalizing n ds with
  | zero => simpa [Nat.toDigitsCore] using h
  | succ fuel ih =>
    rw [Nat.toDigitsCore]
    split
    · exact List.cons_ne_nil _ _
    · exact ih _ _ (List.cons_ne_nil _ _)

theorem toDigits_ne_nil (n : Nat) : Nat.toDigits 10 n ≠ [] := by
  rw [Nat.toDigits, Nat.toDigitsCore]
  split
  · exact List.cons_ne_nil _ _
  · exact toDigitsCore_ne_nil _ _ _ (List.cons_ne_nil _ _)

theorem toDigits_isDigit (n : Nat) : ∀ c ∈ Nat.toDigits 10 n, c.isDigit = true :=
  toDigitsCore_isDigit _ _ [] (by simp)

/-- Every character of the decimal text is a minus sign or a decimal digit. -/
theorem decimal_chars (n : Int) : ∀ c ∈ (decimal n).data, c = '-' ∨ c.isDigit = true := by
  intro c hc
  unfold decimal at hc
  split at hc
  · rcases List.mem_cons.mp hc with rfl | hc
    · exact Or.inl rfl
    · exact Or.inr (toDigits_isDigit _ c hc)
  · exact Or.inr (toDigits_isDigit _ c hc)

theorem decimal_ne_empty (n : Int) : decimal n ≠ "" := by
  intro h
  have hd : (decimal n).data = [] := by rw [h]
  unfold decimal at hd
  split at hd
  · exact List.cons_ne_nil _ _ hd
  · exact toDigits_ne_nil _ hd

theorem decimal_no_newline (n : Int) : '\n' ∉ (decimal n).data := by
  intro h
  rcases decimal_chars n _ h with h | h
  · exact absurd h (by decide)
  · exact absurd h (by decide)

/-- A text containing a letter is not the decimal text of any integer. -/
theorem decimal_ne_of_letter (n : Int) (t : String) (c : Char) (hc : c ∈ t.data)
    (h1 : c ≠ '-') (h2 : c.isDigit = false) : decimal n ≠ t := by
  intro h
  rw [← h] at hc
  rcases decimal_chars n c hc with h | h
  · exact h1 h
  · rw [h2] at h
    cases h

/-! ## The function `test` -/

theorem test_divides {n d : Int} (h : cRem n d = some 0) (c : String)
    (hc : '%' ∉ c.data) (k : cont) (out : Output) :
    test n d c k out = some (skip, out ++ c) := by
  simp [test, h, printf0_plain c hc out]

theorem test_not_divides {n d : Int} (hd : d ≠ 0) (h : Int.tmod n d ≠ 0) (c : String)
    (k : cont) (out : Output) :
    test n d c k out = some (k, out) := by
  simp [test, cRem_of_ne hd h, h]

/-! ## The function `fizzbuzz` -/

theorem test_three (n : Int) (k : cont) (out : Output) :
    test n 3 "fizz" k out
      = if Int.tmod n 3 = 0 then some (skip, out ++ "fizz") else some (k, out) := by
  simp only [test, cRem_three, printf0_fizz, Option.bind_eq_bind, Option.some_bind]

theorem test_five (n : Int) (k : cont) (out : Output) :
    test n 5 "buzz" k out
      = if Int.tmod n 5 = 0 then some (skip, out ++ "buzz") else some (k, out) := by
  simp only [test, cRem_five, printf0_buzz, Option.bind_eq_bind, Option.some_bind]

theorem fizz_append_buzz (out : Output) : out ++ "fizz" ++ "buzz" = out ++ "fizzbuzz" := by
  rw [String.append_assoc]
  rfl

theorem fizzbuzz_eq (n : Int) (out : Output) :
    fizzbuzz n out
      = some (out ++
          (if Int.tmod n 3 = 0 then (if Int.tmod n 5 = 0 then "fizzbuzz" else "fizz")
           else if Int.tmod n 5 = 0 then "buzz" else decimal n)) := by
  simp only [fizzbuzz, test_three, test_five, Option.bind_eq_bind]
  by_cases h3 : Int.tmod n 3 = 0 <;> by_cases h5 : Int.tmod n 5 = 0 <;>
    simp [h3, h5, skip, print, printfInt, fizz_append_buzz]

theorem fizzbuzzOutput_eq (n : Int) :
    fizzbuzzOutput n
      = (if Int.tmod n 3 = 0 then (if Int.tmod n 5 = 0 then "fizzbuzz" else "fizz")
         else if Int.tmod n 5 = 0 then "buzz" else decimal n) := by
  rw [fizzbuzzOutput, fizzbuzz_eq]
  simp

/-- The text written by `fizzbuzz(n)` does not depend on what was written before. -/
theorem fizzbuzz_appends (n : Int) (out : Output) :
    fizzbuzz n out = some (out ++ fizzbuzzOutput n) := by
  rw [fizzbuzzOutput_eq]
  exact fizzbuzz_eq n out

theorem tmod_fifteen (n : Int) :
    Int.tmod n 15 = 0 ↔ Int.tmod n 3 = 0 ∧ Int.tmod n 5 = 0 := by
  rw [← Int.dvd_iff_tmod_eq_zero, ← Int.dvd_iff_tmod_eq_zero, ← Int.dvd_iff_tmod_eq_zero]
  omega

theorem label_chars : ∀ c ∈ "fizzbuzz".data, c ≠ '-' ∧ c.isDigit = false := by
  decide

theorem decimal_ne_fizz (n : Int) : decimal n ≠ "fizz" :=
  decimal_ne_of_letter n "fizz" 'f' (by decide) (by decide) (by decide)

theorem decimal_ne_buzz (n : Int) : decimal n ≠ "buzz" :=
  decimal_ne_of_letter n "buzz" 'b' (by decide) (by decide) (by decide)

theorem decimal_ne_fizzbuzz (n : Int) : decimal n ≠ "fizzbuzz" :=
  decimal_ne_of_letter n "fizzbuzz" 'f' (by decide) (by decide) (by decide)

theorem fizzbuzzOutput_forms (n : Int) :
    fizzbuzzOutput n = decimal n ∨ fizzbuzzOutput n = "fizz" ∨ fizzbuzzOutput n = "buzz"
      ∨ fizzbuzzOutput n = "fizzbuzz" := by
  rw [fizzbuzzOutput_eq]
  by_cases h3 : Int.tmod n 3 = 0 <;> by_cases h5 : Int.tmod n 5 = 0 <;> simp [h3, h5]

theorem fizzbuzzOutput_ne_empty (n : Int) : fizzbuzzOutput n ≠ "" := by
  rcases fizzbuzzOutput_forms n with h | h | h | h <;> rw [h]
  · exact decimal_ne_empty n
  · decide
  · decide
  · decide

theorem fizzbuzzOutput_no_newline (n : Int) : '\n' ∉ (fizzbuzzOutput n).data := by
  rcases fizzbuzzOutput_forms n with h | h | h | h <;> rw [h]
  · exact decimal_no_newline n
  · decide
  · decide
  · decide

/-- A label followed by the decimal text of a number is none of the four forms
that `fizzbuzz` writes. -/
theorem fizzbuzzOutput_ne_label_number (n : Int) (l : String) :
    l ≠ "" → fizzbuzzOutput n ≠ l ++ decimal n := by
  intro hl h
  have hlen : (decimal n).data ≠ [] := fun e => decimal_ne_empty n (String.ext e)
  obtain ⟨c, rest, hcr⟩ := List.exists_cons_of_ne_nil hlen
  have hc : c ∈ (decimal n).data := by rw [hcr]; exact List.mem_cons_self _ _
  have hcm : c ∈ (fizzbuzzOutput n).data := by
    rw [h, String.data_append]
    exact List.mem_append_right _ hc
  have hdig := decimal_chars n c hc
  rcases fizzbuzzOutput_forms n with e | e | e | e
  · have hl2 : (fizzbuzzOutput n).length = (decimal n).length := by rw [e]
    rw [h, String.length_append] at hl2
    have : l.length = 0 := by omega
    apply hl
    apply String.ext
    exact List.length_eq_zero.mp this
  all_goals
    rw [e] at hcm
    have hlab := label_chars c (by revert hcm; simp; try tauto)
    rcases hdig with hd | hd
    · exact hlab.1 hd
    · rw [hlab.2] at hd
      cases hd

/-! ## The function `main` -/

theorem mainLoop_step (i : Int) (h : i ≤ 20) (out : Output) :
    mainLoop i out = mainLoop (i + 1) (out ++ fizzbuzzOutput i ++ "\n") := by
  rw [mainLoop, dif_pos h]
  simp [fizzbuzz_appends i out, printf0_newline]

theorem mainLoop_exit (i : Int) (h : 20 < i) (out : Output) : mainLoop i out = some out := by
  rw [mainLoop, dif_neg (by omega)]

theorem join_cons (t : String) (ts : List String) :
    String.join (t :: ts) = t ++ String.join ts := by
  apply String.ext
  simp

/-- The lines written by the loop when it is entered with counter `a` and has `m`
iterations left. -/
theorem mainLoop_lines : ∀ (m a : Nat) (out : Output), a + m = 21 →
    mainLoop (a : Int) out
      = some (out ++ String.join
          ((List.range' a m).map (fun j : Nat => fizzbuzzOutput (j : Int) ++ "\n")))
  | 0, a, out, h => by
    rw [mainLoop_exit _ (by omega)]
    simp [String.join]
  | m + 1, a, out, h => by
    rw [mainLoop_step _ (by omega)]
    have ih := mainLoop_lines m (a + 1) (out ++ fizzbuzzOutput (a : Int) ++ "\n") (by omega)
    rw [Nat.cast_add, Nat.cast_one] at ih
    rw [ih, List.range'_succ, List.map_cons, join_cons]
    simp only [String.append_assoc]

theorem main_lines (out : Output) :
    main out
      = some (0, out ++ String.join
          ((List.range' 1 20).map (fun j : Nat => fizzbuzzOutput (j : Int) ++ "\n"))) := by
  have h := mainLoop_lines 20 1 out (by decide)
  rw [Nat.cast_one] at h
  simp [main, h]

theorem lines_eq :
    String.join ((List.range' 1 20).map (fun j : Nat => fizzbuzzOutput (j : Int) ++ "\n"))
      = "1\n2\nfizz\n4\nbuzz\nfizz\n7\n8\nfizz\nbuzz\n11\nfizz\n13\n14\nfizzbuzz\n16\n17\nfizz\n19\nbuzz\n" := by
  decide

theorem mainOutput_eq :
    mainOutput
      = "1\n2\nfizz\n4\nbuzz\nfizz\n7\n8\nfizz\nbuzz\n11\nfizz\n13\n14\nfizzbuzz\n16\n17\nfizz\n19\nbuzz\n" := by
  rw [mainOutput, main_lines, lines_eq]
  rfl

theorem test_remainder_zero {n d : Int} (h : cRem n d = some 0) (c : String) (k : cont)
    (out : Output) :
    test n d c k out = (printf0 c out).map (fun o => (skip, o)) := by
  simp only [test, h, Option.bind_eq_bind, Option.some_bind, if_true]
  cases printf0 c out <;> rfl

theorem test_remainder_nonzero {n d r : Int} (h : cRem n d = some r) (hr : r ≠ 0) (c : String)
    (k : cont) (out : Output) :
    test n d c k out = some (k, out) := by
  simp [test, h, hr]

theorem mainLoop_terminates (i : Int) (out : Output) : ∃ out2 : Output, mainLoop i out = some out2 := by
  by_cases h : i ≤ 20
  · rw [mainLoop_step i h]
    exact mainLoop_terminates (i + 1) _
  · exact ⟨out, mainLoop_exit i (by omega) out⟩
termination_by (21 - i).toNat
decreasing_by omega

/-! ## The continuation held by `fizzbuzz` before its final call -/

theorem print_ne_skip : print ≠ skip := by
  intro h
  have h0 : print 0 "" = skip 0 "" := by rw [h]
  revert h0
  decide

theorem fizzbuzz_eq_cont (n : Int) (out : Output) :
    fizzbuzz n out = (fizzbuzzCont n out).bind (fun r => r.1 n r.2) := by
  simp only [fizzbuzz, fizzbuzzCont, Option.bind_eq_bind, Option.bind_assoc]

theorem fizzbuzzCont_eq (n : Int) (out : Output) :
    fizzbuzzCont n out
      = if Int.tmod n 3 = 0 then
          (if Int.tmod n 5 = 0 then some (skip, out ++ "fizz" ++ "buzz")
           else some (skip, out ++ "fizz"))
        else
          (if Int.tmod n 5 = 0 then some (skip, out ++ "buzz") else some (print, out)) := by
  simp only [fizzbuzzCont, test_three, test_five, Option.bind_eq_bind]
  by_cases h3 : Int.tmod n 3 = 0 <;> by_cases h5 : Int.tmod n 5 = 0 <;> simp [h3, h5]

/-! ## The record of the calls of `test` -/

theorem testTraced_eq (n d : Int) (c : String) (k : cont) (out : Output) (calls : Calls) :
    testTraced n d c k out calls
      = (test n d c k out).map (fun r => (r.1, r.2, calls ++ [(n, d)])) := by
  simp only [testTraced, test, Option.bind_eq_bind]
  cases cRem n d with
  | none => rfl
  | some r =>
    simp only [Option.some_bind]
    split
    · cases printf0 c out <;> rfl
    · rfl

theorem fizzbuzzTraced_eq (n : Int) (out : Output) (calls : Calls) :
    fizzbuzzTraced n out calls
      = (fizzbuzz n out).map (fun o => (o, calls ++ [(n, 3), (n, 5)])) := by
  simp only [fizzbuzzTraced, fizzbuzz, testTraced_eq, Option.bind_eq_bind]
  cases test n 3 "fizz" print out with
  | none => rfl
  | some r1 =>
    simp only [Option.map_some', Option.some_bind]
    cases test n 5 "buzz" r1.1 r1.2 with
    | none => rfl
    | some r2 =>
      simp only [Option.map_some', Option.some_bind]
      cases r2.1 n r2.2 with
      | none => rfl
      | some o => simp

/-- The calls of `test` made by the loop of `main` when it is entered with counter
`a` and has `m` iterations left. -/
theorem mainLoopTraced_eq : ∀ (m a : Nat) (out : Output) (calls : Calls), a + m = 21 →
    mainLoopTraced (a : Int) out calls
      = (mainLoop (a : Int) out).map (fun o => (o, calls ++
          ((List.range' a m).map (fun j : Nat => [((j : Int), (3 : Int)), ((j : Int), 5)])).flatten))
  | 0, a, out, calls, h => by
    rw [mainLoopTraced, dif_neg (by omega), mainLoop_exit _ (by omega)]
    simp
  | m + 1, a, out, calls, h => by
    have ih := mainLoopTraced_eq m (a + 1) (out ++ fizzbuzzOutput (a : Int) ++ "\n")
      (calls ++ [((a : Int), 3), ((a : Int), 5)]) (by omega)
    rw [Nat.cast_add, Nat.cast_one] at ih
    rw [mainLoopTraced, dif_pos (by omega), mainLoop_step _ (by omega)]
    simp only [fizzbuzzTraced_eq, fizzbuzz_appends, printf0_newline, Option.map_some',
      Option.bind_eq_bind, Option.some_bind]
    rw [ih, List.range'_succ, List.map_cons, List.flatten_cons, List.append_assoc]

theorem mainTraced_eq (out : Output) (calls : Calls) :
    mainTraced out calls
      = (main out).map (fun r => (r.1, r.2, calls ++
          ((List.range' 1 20).map (fun j : Nat => [((j : Int), (3 : Int)), ((j : Int), 5)])).flatten)) := by
  have h := mainLoopTraced_eq 20 1 out calls (by decide)
  rw [Nat.cast_one] at h
  simp only [mainTraced, main, h, Option.bind_eq_bind]
  cases mainLoop 1 out <;> rfl

/-! ## The reference of the specification -/

theorem referenceText_eq (n : Int) :
    referenceText n
      = (if Int.tmod n 3 = 0 then (if Int.tmod n 5 = 0 then "fizzbuzz" else "fizz")
         else if Int.tmod n 5 = 0 then "buzz" else decimal n) := by
  by_cases h3 : Int.tmod n 3 = 0 <;> by_cases h5 : Int.tmod n 5 = 0 <;>
    simp [referenceText, referenceRules, h3, h5, String.join]

theorem append_eq_self (out t : String) : out ++ t = out ↔ t = "" := by
  constructor
  · intro h
    have hl : (out ++ t).length = out.length := by rw [h]
    rw [String.length_append] at hl
    have ht : t.length = 0 := by omega
    exact String.ext (List.length_eq_zero.mp ht)
  · intro h
    rw [h, String.append_empty]

theorem cRem_zero_left {d : Int} (hd : d ≠ 0) : cRem 0 d = some 0 := by
  unfold cRem
  have hnot : ¬ (d = 0 ∨ ((0 : Int) = INT_MIN ∧ d = -1)) := by
    rintro (h0 | ⟨h1, _⟩)
    · exact hd h0
    · revert h1
      decide
  rw [if_neg hnot, Int.zero_tmod]

/-! ## The claims -/

/-- C1: for every integer `n` with `1 <= n <= 20`, the text `fizzbuzz(n)` writes, which
is the text of line `n` of `main` before its line break, is "fizzbuzz" if
`n % 15 == 0`, "fizz" if `n % 3 == 0` and `n % 5 != 0`, "buzz" if `n % 5 == 0` and
`n % 3 != 0`, and the decimal text of `n` otherwise. -/
theorem C1_fizzbuzz_text_in_range (n : Int) (h1 : 1 ≤ n) (h20 : n ≤ 20) :
    (∀ out : Output, fizzbuzz n out
        = some (out ++
            (if Int.tmod n 15 = 0 then "fizzbuzz"
             else if Int.tmod n 3 = 0 ∧ Int.tmod n 5 ≠ 0 then "fizz"
             else if Int.tmod n 5 = 0 ∧ Int.tmod n 3 ≠ 0 then "buzz"
             else decimal n)))
      ∧ ((List.range' 1 20).map (fun j : Nat => fizzbuzzOutput (j : Int)))[n.toNat - 1]?
          = some
            (if Int.tmod n 15 = 0 then "fizzbuzz"
             else if Int.tmod n 3 = 0 ∧ Int.tmod n 5 ≠ 0 then "fizz"
             else if Int.tmod n 5 = 0 ∧ Int.tmod n 3 ≠ 0 then "buzz"
             else decimal n) := by
  constructor
  · intro out
    rw [fizzbuzz_eq]
    by_cases h3 : Int.tmod n 3 = 0 <;> by_cases h5 : Int.tmod n 5 = 0 <;>
      simp [tmod_fifteen, h3, h5]
  · interval_cases n <;> decide

/-- C1 at `n = 15`, `n = 9`, `n = 10` and `n = 7`. -/
theorem C1_fizzbuzz_text_in_range_witness :
    ((1 : Int) ≤ 15 ∧ (15 : Int) ≤ 20 ∧ ∀ out : Output, fizzbuzz 15 out = some (out ++ "fizzbuzz"))
      ∧ (∀ out : Output, fizzbuzz 9 out = some (out ++ "fizz"))
      ∧ (∀ out : Output, fizzbuzz 10 out = some (out ++ "buzz"))
      ∧ (∀ out : Output, fizzbuzz 7 out = some (out ++ "7")) :=
  ⟨⟨by decide, by decide, (C1_fizzbuzz_text_in_range 15 (by decide) (by decide)).1⟩,
    (C1_fizzbuzz_text_in_range 9 (by decide) (by decide)).1,
    (C1_fizzbuzz_text_in_range 10 (by decide) (by decide)).1,
    (C1_fizzbuzz_text_in_range 7 (by decide) (by decide)).1⟩

/-- C2: the complete output of `main`, started on an empty output stream, is the
byte string of the twenty lines 1, 2, fizz, 4, buzz, fizz, 7, 8, fizz, buzz, 11,
fizz, 13, 14, fizzbuzz, 16, 17, fizz, 19, buzz, each followed by a line break. -/
theorem C2_main_output :
    main "" = some (0, "1\n2\nfizz\n4\nbuzz\nfizz\n7\n8\nfizz\nbuzz\n11\nfizz\n13\n14\nfizzbuzz\n16\n17\nfizz\n19\nbuzz\n")
      ∧ mainOutput = String.join (List.map (fun l => l ++ "\n")
          ["1", "2", "fizz", "4", "buzz", "fizz", "7", "8", "fizz", "buzz",
           "11", "fizz", "13", "14", "fizzbuzz", "16", "17", "fizz", "19", "buzz"]) := by
  constructor
  · rw [main_lines, lines_eq]
    rfl
  · rw [mainOutput_eq]
    decide

/-- C3: `main` writes exactly twenty lines: from any state of the output stream it
appends, for `i = 1, ..., 20` in increasing order, the text of `fizzbuzz(i)` followed
by one line break; each of these texts is what `fizzbuzz(i)` appends, is non-empty
and has no line break, so the output has exactly twenty line breaks and ends with
one. -/
theorem C3_main_twenty_lines :
    (∀ out : Output, main out
        = some (0, out ++ String.join
            ((List.range' 1 20).map (fun j : Nat => fizzbuzzOutput (j : Int) ++ "\n"))))
      ∧ List.range' 1 20
          = [1, 2, 3, 4, 5, 6, 7, 8, 9, 10, 11, 12, 13, 14, 15, 16, 17, 18, 19, 20]
      ∧ (∀ j : Nat, (∀ out : Output, fizzbuzz (j : Int) out = some (out ++ fizzbuzzOutput (j : Int)))
          ∧ fizzbuzzOutput (j : Int) ≠ "" ∧ '\n' ∉ (fizzbuzzOutput (j : Int)).data)
      ∧ mainOutput.data.count '\n' = 20
      ∧ mainOutput.data.getLast? = some '\n' := by
  refine ⟨main_lines, by decide, fun j => ⟨fizzbuzz_appends _, fizzbuzzOutput_ne_empty _,
    fizzbuzzOutput_no_newline _⟩, ?_, ?_⟩
  · rw [mainOutput_eq]
    decide
  · rw [mainOutput_eq]
    decide

/-- C4: for every integer `n`, also zero and negative, the text written by
`fizzbuzz(n)` is one of four pairwise different forms: the decimal text of `n`,
"fizz", "buzz" or "fizzbuzz"; it is never empty, never a label followed by the
number and never a repeated or swapped label. -/
theorem C4_fizzbuzz_one_form (n : Int) :
    (∀ out : Output, fizzbuzz n out = some (out ++ fizzbuzzOutput n))
      ∧ (fizzbuzzOutput n = decimal n ∨ fizzbuzzOutput n = "fizz"
          ∨ fizzbuzzOutput n = "buzz" ∨ fizzbuzzOutput n = "fizzbuzz")
      ∧ (decimal n ≠ "fizz" ∧ decimal n ≠ "buzz" ∧ decimal n ≠ "fizzbuzz")
      ∧ fizzbuzzOutput n ≠ ""
      ∧ (∀ l : String, l ≠ "" → fizzbuzzOutput n ≠ l ++ decimal n)
      ∧ (fizzbuzzOutput n ≠ "fizzfizz" ∧ fizzbuzzOutput n ≠ "buzzbuzz"
          ∧ fizzbuzzOutput n ≠ "buzzfizz") := by
  refine ⟨fizzbuzz_appends n, fizzbuzzOutput_forms n,
    ⟨decimal_ne_fizz n, decimal_ne_buzz n, decimal_ne_fizzbuzz n⟩,
    fizzbuzzOutput_ne_empty n, fizzbuzzOutput_ne_label_number n, ?_⟩
  rcases fizzbuzzOutput_forms n with h | h | h | h <;> rw [h]
  · exact ⟨decimal_ne_of_letter n _ 'f' (by decide) (by decide) (by decide),
      decimal_ne_of_letter n _ 'b' (by decide) (by decide) (by decide),
      decimal_ne_of_letter n _ 'b' (by decide) (by decide) (by decide)⟩
  · decide
  · decide
  · decide

/-- C5: for every integer `n` divisible by both 3 and 5, `fizzbuzz(n)` writes the
labels in rule order, "fizz" followed by "buzz": exactly "fizzbuzz", not
"buzzfizz", not "fizz" alone and not "buzz" alone. -/
theorem C5_both_labels_in_order (n : Int) (h3 : Int.tmod n 3 = 0) (h5 : Int.tmod n 5 = 0) :
    (∀ out : Output, fizzbuzz n out = some (out ++ ("fizz" ++ "buzz")))
      ∧ fizzbuzzOutput n = "fizzbuzz"
      ∧ fizzbuzzOutput n ≠ "buzzfizz" ∧ fizzbuzzOutput n ≠ "fizz"
      ∧ fizzbuzzOutput n ≠ "buzz" := by
  have h : fizzbuzzOutput n = "fizzbuzz" := by
    rw [fizzbuzzOutput_eq]
    simp [h3, h5]
  refine ⟨fun out => ?_, h, ?_, ?_, ?_⟩
  · rw [fizzbuzz_appends, h]
    rfl
  · rw [h]; decide
  · rw [h]; decide
  · rw [h]; decide

/-- C5 at `n = 15` and at the negative multiple `n = -30`. -/
theorem C5_both_labels_in_order_witness :
    (Int.tmod 15 3 = 0 ∧ Int.tmod 15 5 = 0 ∧ fizzbuzzOutput 15 = "fizzbuzz")
      ∧ fizzbuzzOutput (-30) = "fizzbuzz" :=
  ⟨⟨by decide, by decide, (C5_both_labels_in_order 15 (by decide) (by decide)).2.1⟩,
    (C5_both_labels_in_order (-30) (by decide) (by decide)).2.1⟩

/-- C6, refuted as stated: the call `test(3, 3, "fizz", print)` on an empty output
stream leaves the text "fizz" on it, so the call itself has written; and the
continuation it returns writes nothing when it is invoked afterwards. -/
theorem C6_test_no_effect_counterexample :
    (3 : Int) ≠ 0
      ∧ (test 3 3 "fizz" print "").map Prod.snd = some "fizz"
      ∧ ¬ (test 3 3 "fizz" print "").map Prod.snd = some ""
      ∧ (test 3 3 "fizz" print "").bind (fun r => r.1 3 "") = some "" := by
  decide

/-- C6, amended: when `n % d` is defined with value `r`, the call `test(n, d, c, k)`
writes nothing if `r` is not zero; if `r` is zero the call itself performs
`printf(c)`, which for a label without percent sign appends `c` to the output
before the call returns, and the continuation returned is `skip`, which writes
nothing when it is invoked later. -/
theorem C6_test_writes_eagerly (n d r : Int) (hr : cRem n d = some r) (c : String) (k : cont)
    (out : Output) :
    (r ≠ 0 → (test n d c k out).map Prod.snd = some out)
      ∧ (r = 0 → test n d c k out = (printf0 c out).map (fun o => (skip, o)))
      ∧ (r = 0 → '%' ∉ c.data →
          (test n d c k out).map Prod.snd = some (out ++ c)
            ∧ ∀ (m : Int) (o : Output), (test n d c k out).bind (fun p => p.1 m o) = some o) := by
  refine ⟨fun h => ?_, fun h => ?_, fun h hc => ?_⟩
  · rw [test_remainder_nonzero hr h]
    rfl
  · subst h
    exact test_remainder_zero hr c k out
  · subst h
    rw [test_divides hr c hc k out]
    exact ⟨rfl, fun _ _ => rfl⟩

/-- C6 amended, at `test(3, 3, "fizz", print)` and `test(4, 3, "fizz", print)`. -/
theorem C6_test_writes_eagerly_witness :
    (cRem 3 3 = some 0 ∧ (test 3 3 "fizz" print "1\n2\n").map Prod.snd = some "1\n2\nfizz")
      ∧ (cRem 4 3 = some 1 ∧ (test 4 3 "fizz" print "1\n2\n").map Prod.snd = some "1\n2\n") :=
  ⟨⟨by decide,
      ((C6_test_writes_eagerly 3 3 0 (by decide) "fizz" print "1\n2\n").2.2 rfl (by decide)).1⟩,
    ⟨by decide,
      (C6_test_writes_eagerly 4 3 1 (by decide) "fizz" print "1\n2\n").1 (by decide)⟩⟩

/-- C7, refuted as stated: `3 % 3 == 0`, yet the continuation returned by
`test(3, 3, "fizz", print)`, invoked on an empty output stream, leaves it empty: it
does not write the label.  (Besides, a label is a `printf` format: the label "%%"
is written as a single percent sign.) -/
theorem C7_returned_action_counterexample :
    cRem 3 3 = some 0
      ∧ (test 3 3 "fizz" print "").bind (fun r => r.1 3 "") = some ""
      ∧ ¬ (test 3 3 "fizz" print "").bind (fun r => r.1 3 "") = some "fizz"
      ∧ (test 3 3 "%%" print "").map Prod.snd = some "%" := by
  decide

/-- C7, amended: when `n % d == 0` and the label `c` has no percent sign, the call
`test(n, d, c, k)` itself writes exactly `c` and returns `skip`, a continuation
that writes nothing when invoked (for any argument, on any output); so the call
followed by the invocation of the returned continuation writes exactly the label
`c`, without number and without line break. -/
theorem C7_label_written_by_call (n d : Int) (h : cRem n d = some 0) (c : String)
    (hc : '%' ∉ c.data) (k : cont) (out : Output) :
    test n d c k out = some (skip, out ++ c)
      ∧ (∀ (m : Int) (o : Output), skip m o = some o)
      ∧ (test n d c k out).bind (fun r => r.1 n r.2) = some (out ++ c) := by
  rw [test_divides h c hc k out]
  exact ⟨rfl, fun _ _ => rfl, rfl⟩

/-- C7 amended, at `test(10, 5, "buzz", print)`. -/
theorem C7_label_written_by_call_witness :
    cRem 10 5 = some 0 ∧ '%' ∉ "buzz".data
      ∧ (test 10 5 "buzz" print "").bind (fun r => r.1 10 r.2) = some "buzz" :=
  ⟨by decide, by decide,
    (C7_label_written_by_call 10 5 (by decide) "buzz" (by decide) print "").2.2⟩

/-- C8: for every `n`, nonzero `d` with `n % d != 0`, label `c` and fallback `k`, the
call `test(n, d, c, k)` returns exactly `k` and writes nothing. -/
theorem C8_test_pass_through (n d : Int) (hd : d ≠ 0) (h : Int.tmod n d ≠ 0) (c : String)
    (k : cont) (out : Output) :
    test n d c k out = some (k, out) :=
  test_not_divides hd h c k out

/-- C8 at `test(7, 3, "fizz", print)` and, with a label that is not a plain format,
at `test(-7, 5, "%d", skip)`. -/
theorem C8_test_pass_through_witness :
    ((3 : Int) ≠ 0 ∧ Int.tmod 7 3 ≠ 0 ∧ test 7 3 "fizz" print "" = some (print, ""))
      ∧ test (-7) 5 "%d" skip "x" = some (skip, "x") :=
  ⟨⟨by decide, by decide, C8_test_pass_through 7 3 (by decide) (by decide) "fizz" print ""⟩,
    C8_test_pass_through (-7) 5 (by decide) (by decide) "%d" skip "x"⟩

/-- C9: the program keeps no hidden state.  The text `fizzbuzz(n)` writes is the same
from any two states of the output stream, also when another call of `fizzbuzz`
happened in between; the text `main` writes is the same from any two states, and a
second run of `main` after a first one writes the same text again. -/
theorem C9_no_hidden_state :
    (∀ (n : Int) (out₁ out₂ : Output),
        fizzbuzz n out₁ = some (out₁ ++ fizzbuzzOutput n)
          ∧ fizzbuzz n out₂ = some (out₂ ++ fizzbuzzOutput n))
      ∧ (∀ (n m : Int) (out : Output),
          (fizzbuzz n out).bind (fun o => (fizzbuzz m o).bind (fun o2 => fizzbuzz n o2))
            = some (out ++ fizzbuzzOutput n ++ fizzbuzzOutput m ++ fizzbuzzOutput n))
      ∧ (∀ out₁ out₂ : Output,
          main out₁ = some (0, out₁ ++ mainOutput) ∧ main out₂ = some (0, out₂ ++ mainOutput))
      ∧ (∀ out : Output,
          (main out).bind (fun r => main r.2) = some (0, out ++ mainOutput ++ mainOutput)) := by
  have hmain : ∀ out : Output, main out = some (0, out ++ mainOutput) := by
    intro out
    rw [main_lines, mainOutput_eq, lines_eq]
  refine ⟨fun n o1 o2 => ⟨fizzbuzz_appends n o1, fizzbuzz_appends n o2⟩, fun n m out => ?_,
    fun o1 o2 => ⟨hmain o1, hmain o2⟩, fun out => ?_⟩
  · simp [fizzbuzz_appends]
  · simp [hmain]

/-- C10: `main` always terminates and returns exit code 0: from every state of the
output stream the loop, whatever the value of its counter, stops with a defined
result; it is left as soon as the counter exceeds 20; `main` returns 0 and no
result of `main` carries another exit code. -/
theorem C10_main_terminates_with_zero :
    (∀ (i : Int) (out : Output), ∃ out2 : Output, mainLoop i out = some out2)
      ∧ (∀ out : Output, mainLoop 21 out = some out)
      ∧ (∀ out : Output, ∃ out2 : Output, main out = some (0, out2))
      ∧ (∀ (out : Output) (r : Int × Output), main out = some r → r.1 = 0) := by
  refine ⟨mainLoop_terminates, fun out => mainLoop_exit 21 (by decide) out,
    fun out => ⟨_, main_lines out⟩, fun out r h => ?_⟩
  rw [main_lines] at h
  cases h
  rfl

/-- C11, refuted as stated: `3 % 3 == 0`, and a fallback invoked after the label
would leave "fizz3" when the fallback is `print`; but `test(3, 3, "fizz", print)`
followed by the invocation of what it returns leaves "fizz", the same happens with
a fallback whose invocation is undefined, and `fizzbuzz(3)` writes "fizz". -/
theorem C11_fallback_invoked_counterexample :
    cRem 3 3 = some 0
      ∧ (printf0 "fizz" "").bind (fun o => print 3 o) = some "fizz3"
      ∧ (test 3 3 "fizz" print "").bind (fun r => r.1 3 r.2) = some "fizz"
      ∧ (test 3 3 "fizz" (fun _ _ => none) "").bind (fun r => r.1 3 r.2) = some "fizz"
      ∧ fizzbuzz 3 "" = some "fizz" := by
  decide

/-- C11, amended: a matching rule emits its label and discards the fallback.  When
`n % d == 0`, the result of `test(n, d, c, k)` is the same for every fallback `k`;
for a label without percent sign the call followed by the invocation of what it
returns writes exactly `c`, also when invoking the fallback would be undefined, so
the fallback is not invoked.  In `fizzbuzz`, as soon as a rule matches, the
continuation finally invoked is `skip` and not `print`. -/
theorem C11_fallback_discarded (n d : Int) (h : cRem n d = some 0) (c : String) (k : cont)
    (out : Output) :
    (∀ k2 : cont, test n d c k out = test n d c k2 out)
      ∧ ('%' ∉ c.data →
          (test n d c (fun _ _ => none) out).bind (fun r => r.1 n r.2) = some (out ++ c)
            ∧ (test n d c k out).bind (fun r => r.1 n r.2) = some (out ++ c))
      ∧ (∀ (m : Int) (o : Output), (Int.tmod m 3 = 0 ∨ Int.tmod m 5 = 0) →
          (fizzbuzzCont m o).map Prod.fst = some skip
            ∧ (fizzbuzzCont m o).map Prod.fst ≠ some print) := by
  refine ⟨fun k2 => ?_, fun hc => ?_, fun m o hm => ?_⟩
  · rw [test_remainder_zero h c k out, test_remainder_zero h c k2 out]
  · rw [test_divides h c hc _ out, test_divides h c hc k out]
    exact ⟨rfl, rfl⟩
  · have hs : (fizzbuzzCont m o).map Prod.fst = some skip := by
      rw [fizzbuzzCont_eq]
      by_cases h3 : Int.tmod m 3 = 0 <;> by_cases h5 : Int.tmod m 5 = 0 <;> simp [h3, h5]
      exact absurd hm (not_or.mpr ⟨h3, h5⟩)
    refine ⟨hs, ?_⟩
    rw [hs]
    intro e
    exact print_ne_skip (Option.some.inj e).symm

/-- C11 amended, at `test(3, 3, "fizz", print)` and at `fizzbuzz(10)`. -/
theorem C11_fallback_discarded_witness :
    cRem 3 3 = some 0
      ∧ (test 3 3 "fizz" print "").bind (fun r => r.1 3 r.2) = some "fizz"
      ∧ (fizzbuzzCont 10 "").map Prod.fst = some skip :=
  ⟨by decide,
    ((C11_fallback_discarded 3 3 (by decide) "fizz" print "").2.1 (by decide)).2,
    ((C11_fallback_discarded 3 3 (by decide) "fizz" print "").2.2 10 ""
      (Or.inr (by decide))).1⟩

/-- C12: every remainder operation of the program is well-defined.  The calls of
`test` made by `main`, recorded in order, are the pairs `(i, 3)`, `(i, 5)` for
`i = 1, ..., 20`; the recording does not change the result of `main`; each recorded
call has its divisor in {3, 5}, hence not zero, its `n` between 1 and 20, a defined
remainder, and neither the remainder nor the increment of the loop counter leaves
the range of `int`.  Moreover `fizzbuzz(n)` calls `test` with the divisors 3 and 5
only, for every `n`, and both remainders are defined for every `n`. -/
theorem C12_remainders_defined :
    mainTraced "" [] = some (0, mainOutput,
        ((List.range' 1 20).map (fun j : Nat => [((j : Int), (3 : Int)), ((j : Int), 5)])).flatten)
      ∧ (∀ (out : Output) (calls : Calls),
          (mainTraced out calls).map (fun r => (r.1, r.2.1)) = main out)
      ∧ (∀ p ∈ ((List.range' 1 20).map
            (fun j : Nat => [((j : Int), (3 : Int)), ((j : Int), 5)])).flatten,
          (p.2 = 3 ∨ p.2 = 5) ∧ p.2 ≠ 0 ∧ 1 ≤ p.1 ∧ p.1 ≤ 20
            ∧ cRem p.1 p.2 = some (Int.tmod p.1 p.2)
            ∧ INT_MIN ≤ Int.tmod p.1 p.2 ∧ Int.tmod p.1 p.2 ≤ INT_MAX
            ∧ p.1 + 1 ≤ INT_MAX)
      ∧ (∀ (n : Int) (out : Output) (calls : Calls),
          fizzbuzzTraced n out calls
            = some (out ++ fizzbuzzOutput n, calls ++ [(n, 3), (n, 5)]))
      ∧ (∀ n : Int, cRem n 3 = some (Int.tmod n 3) ∧ cRem n 5 = some (Int.tmod n 5)) := by
  refine ⟨?_, fun out calls => ?_, by decide, fun n out calls => ?_,
    fun n => ⟨cRem_three n, cRem_five n⟩⟩
  · rw [mainTraced_eq, main_lines, lines_eq, mainOutput_eq]
    rfl
  · rw [mainTraced_eq, main_lines]
    rfl
  · rw [fizzbuzzTraced_eq, fizzbuzz_appends]
    rfl

/-- C13: for `n == 0` every rule matches.  For every nonzero `d` the remainder `0 % d`
is defined and zero, so `test(0, d, c, k)` takes the divisible branch: it performs
`printf(c)` and returns `skip`; and `fizzbuzz(0)` writes exactly "fizzbuzz", which
is not the decimal text "0" and has no digit 0. -/
theorem C13_zero_matches_every_rule (d : Int) (hd : d ≠ 0) (c : String) (k : cont)
    (out : Output) :
    cRem 0 d = some 0
      ∧ test 0 d c k out = (printf0 c out).map (fun o => (skip, o))
      ∧ ('%' ∉ c.data → test 0 d c k out = some (skip, out ++ c))
      ∧ fizzbuzz 0 out = some (out ++ "fizzbuzz")
      ∧ fizzbuzzOutput 0 = "fizzbuzz"
      ∧ decimal 0 = "0"
      ∧ '0' ∉ (fizzbuzzOutput 0).data := by
  have h0 : fizzbuzzOutput 0 = "fizzbuzz" := by decide
  refine ⟨cRem_zero_left hd, test_remainder_zero (cRem_zero_left hd) c k out,
    fun hc => test_divides (cRem_zero_left hd) c hc k out, ?_, h0, by decide, by decide⟩
  rw [fizzbuzz_appends, h0]

/-- C13 at the divisors 3 and -7. -/
theorem C13_zero_matches_every_rule_witness :
    ((3 : Int) ≠ 0 ∧ cRem 0 3 = some 0 ∧ fizzbuzz 0 "" = some ("" ++ "fizzbuzz"))
      ∧ (test 0 (-7) "buzz" print "x").map Prod.snd = some "xbuzz" :=
  ⟨⟨by decide, (C13_zero_matches_every_rule 3 (by decide) "fizz" print "").1,
      (C13_zero_matches_every_rule 3 (by decide) "fizz" print "").2.2.2.1⟩,
    by rw [(C13_zero_matches_every_rule (-7) (by decide) "buzz" print "x").2.2.1 (by decide)]
       rfl⟩

/-- C14: for every integer `n`, the continuation `fizzbuzz(n)` finally invokes is
`print` if and only if neither 3 nor 5 divides `n`, and `skip` if and only if one of
them does; no label has been written before that call exactly when it is `print`;
hence the text written is the decimal text of `n` exactly when no rule matched, and
has no digit at all otherwise; and `fizzbuzz(n)` writes the text of the reference
that concatenates the labels of the matching rules in order 3 then 5 and emits the
number only if none matched. -/
theorem C14_final_continuation_and_reference (n : Int) (out : Output) :
    fizzbuzz n out = (fizzbuzzCont n out).bind (fun r => r.1 n r.2)
      ∧ ((fizzbuzzCont n out).map Prod.fst = some print
          ↔ (Int.tmod n 3 ≠ 0 ∧ Int.tmod n 5 ≠ 0))
      ∧ ((fizzbuzzCont n out).map Prod.fst = some skip
          ↔ (Int.tmod n 3 = 0 ∨ Int.tmod n 5 = 0))
      ∧ ((fizzbuzzCont n out).map Prod.snd = some out
          ↔ (Int.tmod n 3 ≠ 0 ∧ Int.tmod n 5 ≠ 0))
      ∧ (fizzbuzzOutput n = decimal n ↔ (Int.tmod n 3 ≠ 0 ∧ Int.tmod n 5 ≠ 0))
      ∧ ((Int.tmod n 3 = 0 ∨ Int.tmod n 5 = 0) →
          ∀ c ∈ (fizzbuzzOutput n).data, c ≠ '-' ∧ c.isDigit = false)
      ∧ fizzbuzz n out = some (out ++ referenceText n)
      ∧ referenceText n = fizzbuzzOutput n := by
  have hps : print ≠ skip := print_ne_skip
  have hsp : skip ≠ print := fun e => print_ne_skip e.symm
  have hfb : out ++ "fizz" ++ "buzz" ≠ out := by
    rw [fizz_append_buzz]
    exact fun e => absurd ((append_eq_self _ _).mp e) (by decide)
  have hf : out ++ "fizz" ≠ out := fun e => absurd ((append_eq_self _ _).mp e) (by decide)
  have hb : out ++ "buzz" ≠ out := fun e => absurd ((append_eq_self _ _).mp e) (by decide)
  have hd1 := decimal_ne_fizz n
  have hd2 := decimal_ne_buzz n
  have hd3 := decimal_ne_fizzbuzz n
  refine ⟨fizzbuzz_eq_cont n out, ?_, ?_, ?_, ?_, ?_, ?_, ?_⟩
  · rw [fizzbuzzCont_eq]
    by_cases h3 : Int.tmod n 3 = 0 <;> by_cases h5 : Int.tmod n 5 = 0 <;> simp [h3, h5, hsp]
  · rw [fizzbuzzCont_eq]
    by_cases h3 : Int.tmod n 3 = 0 <;> by_cases h5 : Int.tmod n 5 = 0 <;> simp [h3, h5, hps]
  · rw [fizzbuzzCont_eq]
    by_cases h3 : Int.tmod n 3 = 0 <;> by_cases h5 : Int.tmod n 5 = 0 <;>
      simp [h3, h5, hfb, hf, hb]
  · rw [fizzbuzzOutput_eq]
    by_cases h3 : Int.tmod n 3 = 0 <;> by_cases h5 : Int.tmod n 5 = 0 <;>
      simp [h3, h5, hd1.symm, hd2.symm, hd3.symm]
  · intro hm c hc
    rw [fizzbuzzOutput_eq] at hc
    apply label_chars c
    by_cases h3 : Int.tmod n 3 = 0 <;> by_cases h5 : Int.tmod n 5 = 0 <;>
      simp [h3, h5] at hc hm ⊢ <;> tauto
  · rw [referenceText_eq]
    exact fizzbuzz_eq n out
  · rw [referenceText_eq, fizzbuzzOutput_eq]

end FizzBuzz
